import Mathlib

/-!
Verification of the Phoenix engine demo (phoenix_simple_demo.py).

The Python source is shallowly embedded: floats become rationals (ℚ),
Python ints become ℤ, the mutable `PhoenixEngineDemo` object becomes an
explicit `EngineState` threaded through the operations, and the ambient
clock used for the output timestamp becomes an explicit `now` argument.
`process_signal` returns the updated state together with the optional
`TradingSignal`.
-/

namespace Phoenix

/-- Embeds the `PhoenixConfig` dataclass. -/
structure PhoenixConfig where
  capital : ℚ
  risk_tolerance : ℚ
  max_position_size : ℚ
  trading_mode : String
  deriving Repr, DecidableEq

/-- Embeds the `MarketSignal` dataclass. -/
structure MarketSignal where
  token : String
  price : ℚ
  volume : ℚ
  timestamp : String
  signal_strength : ℚ
  deriving Repr, DecidableEq

/-- Embeds the `TradingSignal` dataclass. -/
structure TradingSignal where
  action : String
  token : String
  amount : ℚ
  price : ℚ
  confidence : ℚ
  timestamp : String
  deriving Repr, DecidableEq

/-- Embeds the `PhoenixMetrics` dataclass. -/
structure PhoenixMetrics where
  total_trades : ℤ
  successful_trades : ℤ
  total_pnl : ℚ
  win_rate : ℚ
  avg_trade_duration : ℚ
  current_positions : ℤ
  deriving Repr, DecidableEq

/-- The mutable state of a `PhoenixEngineDemo` object. -/
structure EngineState where
  config : PhoenixConfig
  metrics : PhoenixMetrics
  active : Bool
  deriving Repr, DecidableEq

/-- Embeds `PhoenixEngineDemo.__init__`: the constructor takes only
`capital` and derives every other configuration field from it. -/
def EngineState.new (capital : ℚ) : EngineState :=
  { config :=
      { capital := capital
        risk_tolerance := 0.85
        max_position_size := capital * 0.1
        trading_mode := "DEMO" }
    metrics :=
      { total_trades := 0
        successful_trades := 0
        total_pnl := 0
        win_rate := 0
        avg_trade_duration := 0
        current_positions := 0 }
    active := false }

/-- Embeds `PhoenixEngineDemo.activate` (the prints are I/O only). -/
def EngineState.activate (s : EngineState) : EngineState :=
  { s with active := true }

/-- Embeds `PhoenixEngineDemo.deactivate` (the prints are I/O only). -/
def EngineState.deactivate (s : EngineState) : EngineState :=
  { s with active := false }

/-- Embeds `PhoenixEngineDemo.get_metrics`. -/
def EngineState.get_metrics (s : EngineState) : PhoenixMetrics :=
  s.metrics

/-- Embeds `PhoenixEngineDemo.calculate_confidence`. -/
def calculate_confidence (config : PhoenixConfig) (signal : MarketSignal) : ℚ :=
  let volume_factor := min (signal.volume / 1000000) 1
  let strength_factor := signal.signal_strength
  let risk_factor := config.risk_tolerance
  min (volume_factor * strength_factor * risk_factor) 1

/-- Embeds `PhoenixEngineDemo.calculate_position_size`. -/
def calculate_position_size (config : PhoenixConfig) (signal : MarketSignal)
    (confidence : ℚ) : ℚ :=
  let base_size := config.max_position_size
  let confidence_multiplier := confidence
  let volatility_adjustment := 1 - |signal.signal_strength - 0.5|
  base_size * confidence_multiplier * volatility_adjustment

/-- Embeds `PhoenixEngineDemo.process_signal`.  `now` is the ambient clock
value (`datetime.now(timezone.utc).isoformat()`) used for the output
timestamp.  Returns the updated engine state and the optional trade. -/
def process_signal (s : EngineState) (signal : MarketSignal) (now : String) :
    EngineState × Option TradingSignal :=
  if !s.active then (s, none)
  else
    let confidence := calculate_confidence s.config signal
    if confidence > 0.7 then
      let action := if signal.signal_strength > 0.5 then "BUY" else "SELL"
      let amount := calculate_position_size s.config signal confidence
      let trading_signal : TradingSignal :=
        { action := action
          token := signal.token
          amount := amount
          price := signal.price
          confidence := confidence
          timestamp := now }
      let m1 : PhoenixMetrics :=
        { s.metrics with total_trades := s.metrics.total_trades + 1 }
      let m2 : PhoenixMetrics :=
        if confidence > 0.8 then
          { m1 with
            successful_trades := m1.successful_trades + 1
            total_pnl := m1.total_pnl + amount * 0.02 }
        else m1
      let m3 : PhoenixMetrics :=
        if m2.total_trades > 0 then
          { m2 with win_rate := (m2.successful_trades : ℚ) / (m2.total_trades : ℚ) }
        else m2
      ({ s with metrics := m3 }, some trading_signal)
    else (s, none)

/-- Division that fails (like Python raising `ZeroDivisionError`) when the
denominator is zero; used to check that the code's own guard prevents the
division by zero. -/
def checkedDiv (a b : ℚ) : Option ℚ :=
  if b = 0 then none else some (a / b)

/-- `process_signal` with the win-rate division modelled as fallible:
returns `none` exactly when the Python code would raise
`ZeroDivisionError`. -/
def process_signal_checked (s : EngineState) (signal : MarketSignal)
    (now : String) : Option (EngineState × Option TradingSignal) :=
  if !s.active then some (s, none)
  else
    let confidence := calculate_confidence s.config signal
    if confidence > 0.7 then
      let action := if signal.signal_strength > 0.5 then "BUY" else "SELL"
      let amount := calculate_position_size s.config signal confidence
      let trading_signal : TradingSignal :=
        { action := action
          token := signal.token
          amount := amount
          price := signal.price
          confidence := confidence
          timestamp := now }
      let m1 : PhoenixMetrics :=
        { s.metrics with total_trades := s.metrics.total_trades + 1 }
      let m2 : PhoenixMetrics :=
        if confidence > 0.8 then
          { m1 with
            successful_trades := m1.successful_trades + 1
            total_pnl := m1.total_pnl + amount * 0.02 }
        else m1
      if m2.total_trades > 0 then
        match checkedDiv (m2.successful_trades : ℚ) (m2.total_trades : ℚ) with
        | none => none
        | some w => some ({ s with metrics := { m2 with win_rate := w } }, some trading_signal)
      else
        some ({ s with metrics := m2 }, some trading_signal)
    else some (s, none)

/-- One external call on the engine, for reasoning about call sequences. -/
inductive Call where
  | activate : Call
  | deactivate : Call
  | process (signal : MarketSignal) (now : String) : Call
  | get_metrics : Call
  deriving Repr

/-- The state after one call (`get_metrics` is read-only). -/
def stepCall (s : EngineState) (c : Call) : EngineState :=
  match c with
  | .activate => s.activate
  | .deactivate => s.deactivate
  | .process signal now => (process_signal s signal now).1
  | .get_metrics => s

/-- The state after a sequence of calls. -/
def runCalls (s : EngineState) (cs : List Call) : EngineState :=
  cs.foldl stepCall s

/-! Concrete sample data, mirroring the demo driver (`main` constructs the
engine with capital 1000 and activates it; the signal values match the
ranges produced by `generate_market_signal`). -/

/-- A high-volume, high-strength signal (spec Scenario A). -/
def demoSignalA : MarketSignal :=
  { token := "BONK", price := 0.05, volume := 2000000,
    timestamp := "2025-01-01T00:00:00+00:00", signal_strength := 0.9 }

/-- A low-volume, low-strength signal (spec Scenario B). -/
def demoSignalB : MarketSignal :=
  { token := "WIF", price := 0.02, volume := 100000,
    timestamp := "2025-01-01T00:00:05+00:00", signal_strength := 0.2 }

/-- The demo engine (capital 1000) after activation. -/
def demoActive : EngineState := (EngineState.new 1000).activate

/-- A signal whose `signal_strength` lies outside `[0,1]`; the core accepts
such signals as-is (no validation is performed). -/
def badSignal : MarketSignal :=
  { token := "PNUT", price := 1, volume := 2000000,
    timestamp := "2025-01-01T00:00:10+00:00", signal_strength := 2 }

/-! Helper lemmas shared by several results. -/

lemma calculate_position_size_nonneg (config : PhoenixConfig)
    (signal : MarketSignal) (confidence : ℚ)
    (hb : 0 ≤ config.max_position_size) (hc : 0 ≤ confidence)
    (hs0 : 0 ≤ signal.signal_strength) (hs1 : signal.signal_strength ≤ 1) :
    0 ≤ calculate_position_size config signal confidence := by
  show 0 ≤ config.max_position_size * confidence * (1 - |signal.signal_strength - 0.5|)
  have habs : |signal.signal_strength - 0.5| ≤ 0.5 :=
    abs_le.mpr ⟨by linarith, by linarith⟩
  apply mul_nonneg (mul_nonneg hb hc)
  linarith

lemma calculate_position_size_le (config : PhoenixConfig)
    (signal : MarketSignal) (confidence : ℚ)
    (hb : 0 ≤ config.max_position_size) (hc : 0 ≤ confidence)
    (hc1 : confidence ≤ 1) :
    calculate_position_size config signal confidence ≤ config.max_position_size := by
  show config.max_position_size * confidence * (1 - |signal.signal_strength - 0.5|) ≤
    config.max_position_size
  have habs : 0 ≤ |signal.signal_strength - 0.5| := abs_nonneg _
  calc config.max_position_size * confidence * (1 - |signal.signal_strength - 0.5|)
      ≤ config.max_position_size * confidence :=
        mul_le_of_le_one_right (mul_nonneg hb hc) (by linarith)
    _ ≤ config.max_position_size := mul_le_of_le_one_right hb hc1

lemma process_signal_eq_some (s : EngineState) (signal : MarketSignal)
    (now : String) (t : TradingSignal)
    (h : (process_signal s signal now).2 = some t) :
    s.active = true ∧ 0.7 < calculate_confidence s.config signal ∧
    t = { action := if signal.signal_strength > 0.5 then "BUY" else "SELL"
          token := signal.token
          amount := calculate_position_size s.config signal
            (calculate_confidence s.config signal)
          price := signal.price
          confidence := calculate_confidence s.config signal
          timestamp := now } := by
  by_cases ha : s.active = true
  · by_cases hc : calculate_confidence s.config signal > 0.7
    · refine ⟨ha, hc, ?_⟩
      simp only [process_signal, ha, Bool.not_true, Bool.false_eq_true,
        if_false, if_pos hc] at h
      exact (Option.some.inj h).symm
    · simp only [process_signal, ha, Bool.not_true, Bool.false_eq_true,
        if_false, if_neg hc] at h
      exact Option.noConfusion h
  · have ha' : s.active = false := by
      cases hb : s.active
      · rfl
      · exact absurd hb ha
    simp only [process_signal, ha', Bool.not_false, if_true] at h
    exact Option.noConfusion h

/-- C1: while the engine is Active, `process_signal` returns no trade and
leaves the whole state (hence every metric) unchanged when the computed
confidence is at most 0.7 — the threshold is exclusive, so exactly 0.7 does
not qualify — and returns a `TradingSignal` when the confidence is strictly
greater than 0.7. -/
theorem confidence_threshold_exclusive (s : EngineState) (signal : MarketSignal)
    (now : String) (hact : s.active = true) :
    (calculate_confidence s.config signal ≤ 0.7 →
      process_signal s signal now = (s, none)) ∧
    (0.7 < calculate_confidence s.config signal →
      (process_signal s signal now).2.isSome = true) := by
  constructor
  · intro h
    simp only [process_signal, hact, Bool.not_true, Bool.false_eq_true, if_false]
    rw [if_neg (not_lt.mpr h)]
  · intro h
    simp only [process_signal, hact, Bool.not_true, Bool.false_eq_true, if_false,
      if_pos h]
    rfl

/-- Witness for C1: on the activated demo engine, Scenario B's signal
(confidence 0.017 ≤ 0.7) yields no trade and an unchanged state, while
Scenario A's signal (confidence 0.765 > 0.7) yields a trade. -/
theorem confidence_threshold_exclusive_witness :
    (process_signal demoActive demoSignalB "n" = (demoActive, none)) ∧
    (process_signal demoActive demoSignalA "n").2.isSome = true :=
  ⟨(confidence_threshold_exclusive demoActive demoSignalB "n" rfl).1 (by
      norm_num [calculate_confidence, demoActive, demoSignalB, EngineState.new,
        EngineState.activate, min_def]),
   (confidence_threshold_exclusive demoActive demoSignalA "n" rfl).2 (by
      norm_num [calculate_confidence, demoActive, demoSignalA, EngineState.new,
        EngineState.activate, min_def])⟩

/-- C3: when the engine is Inactive, `process_signal` returns no trade and
the whole state — in particular every field of the metrics — is unchanged. -/
theorem inactive_returns_none (s : EngineState) (signal : MarketSignal)
    (now : String) (h : s.active = false) :
    process_signal s signal now = (s, none) := by
  simp [process_signal, h]

/-- Witness for C3: the freshly constructed engine is inactive and ignores
Scenario A's signal. -/
theorem inactive_returns_none_witness :
    process_signal (EngineState.new 1000) demoSignalA "n" =
      (EngineState.new 1000, none) :=
  inactive_returns_none (EngineState.new 1000) demoSignalA "n" rfl

/-- C4: with `risk_tolerance ∈ [0,1]`, `signal_strength ∈ [0,1]`, and
`volume ≥ 0`, the scoring function returns a confidence in `[0,1]`. -/
theorem confidence_mem_unit_interval (config : PhoenixConfig)
    (signal : MarketSignal)
    (hr0 : 0 ≤ config.risk_tolerance) (hr1 : config.risk_tolerance ≤ 1)
    (hs0 : 0 ≤ signal.signal_strength) (hs1 : signal.signal_strength ≤ 1)
    (hv : 0 ≤ signal.volume) :
    0 ≤ calculate_confidence config signal ∧
      calculate_confidence config signal ≤ 1 := by
  constructor
  · show 0 ≤ min (min (signal.volume / 1000000) 1 * signal.signal_strength *
      config.risk_tolerance) 1
    refine le_min ?_ zero_le_one
    refine mul_nonneg (mul_nonneg ?_ hs0) hr0
    exact le_min (by positivity) zero_le_one
  · show min (min (signal.volume / 1000000) 1 * signal.signal_strength *
      config.risk_tolerance) 1 ≤ 1
    exact min_le_right _ _

/-- Witness for C4: the demo configuration (risk tolerance 0.85) and
Scenario A's signal satisfy the hypotheses, so its confidence is in [0,1]. -/
theorem confidence_mem_unit_interval_witness :
    0 ≤ calculate_confidence demoActive.config demoSignalA ∧
      calculate_confidence demoActive.config demoSignalA ≤ 1 :=
  confidence_mem_unit_interval demoActive.config demoSignalA
    (by norm_num [demoActive, EngineState.new, EngineState.activate])
    (by norm_num [demoActive, EngineState.new, EngineState.activate])
    (by norm_num [demoSignalA])
    (by norm_num [demoSignalA])
    (by norm_num [demoSignalA])

/-- C5 counterexample: with the demo configuration (max_position_size 100),
the signal with signal_strength 2 at confidence 0.5 gets position size −25,
which is negative — so without range hypotheses the claimed bounds fail. -/
theorem position_size_negative_on_bad_signal :
    calculate_position_size (EngineState.new 1000).config badSignal 0.5 < 0 := by
  norm_num [calculate_position_size, badSignal, EngineState.new, abs]

/-- C5 (amended): provided `max_position_size ≥ 0`, `confidence ∈ [0,1]`
and `signal_strength ∈ [0,1]`, the position size is non-negative and never
exceeds the configured `max_position_size`. -/
theorem position_size_bounds (config : PhoenixConfig) (signal : MarketSignal)
    (confidence : ℚ)
    (hb : 0 ≤ config.max_position_size)
    (hc0 : 0 ≤ confidence) (hc1 : confidence ≤ 1)
    (hs0 : 0 ≤ signal.signal_strength) (hs1 : signal.signal_strength ≤ 1) :
    0 ≤ calculate_position_size config signal confidence ∧
      calculate_position_size config signal confidence ≤
        config.max_position_size :=
  ⟨calculate_position_size_nonneg config signal confidence hb hc0 hs0 hs1,
   calculate_position_size_le config signal confidence hb hc0 hc1⟩

/-- Witness for C5: Scenario A's signal at its computed confidence 0.765 on
the demo configuration stays within [0, 100]. -/
theorem position_size_bounds_witness :
    0 ≤ calculate_position_size demoActive.config demoSignalA 0.765 ∧
      calculate_position_size demoActive.config demoSignalA 0.765 ≤
        demoActive.config.max_position_size :=
  position_size_bounds demoActive.config demoSignalA 0.765
    (by norm_num [demoActive, EngineState.new, EngineState.activate])
    (by norm_num) (by norm_num)
    (by norm_num [demoSignalA]) (by norm_num [demoSignalA])

/-- C6 counterexample: on the activated demo engine, the signal with
signal_strength 2 scores confidence 1 (> 0.8) and position size −50, so
`total_pnl` falls from 0 to −1: it is not monotone over all inputs. -/
theorem total_pnl_decreases_on_bad_signal :
    (process_signal demoActive badSignal "n").1.metrics.total_pnl <
      demoActive.metrics.total_pnl := by
  norm_num [process_signal, calculate_confidence, calculate_position_size,
    demoActive, badSignal, EngineState.new, EngineState.activate, min_def, abs]

/-- C6 (amended): provided the configured `max_position_size` is
non-negative and the signal's `signal_strength` lies in `[0,1]`, every
`process_signal` call leaves `total_pnl` at or above its previous value. -/
theorem total_pnl_monotone (s : EngineState) (signal : MarketSignal)
    (now : String)
    (hb : 0 ≤ s.config.max_position_size)
    (hs0 : 0 ≤ signal.signal_strength) (hs1 : signal.signal_strength ≤ 1) :
    s.metrics.total_pnl ≤ (process_signal s signal now).1.metrics.total_pnl := by
  by_cases ha : s.active = true
  · by_cases hc : calculate_confidence s.config signal > 0.7
    · by_cases h8 : calculate_confidence s.config signal > 0.8
      · have hamount : 0 ≤ calculate_position_size s.config signal
            (calculate_confidence s.config signal) :=
          calculate_position_size_nonneg s.config signal _ hb (by linarith)
            hs0 hs1
        simp only [process_signal, ha, Bool.not_true, Bool.false_eq_true,
          if_false, if_pos hc, if_pos h8]
        split <;> simp <;> linarith
      · simp only [process_signal, ha, Bool.not_true, Bool.false_eq_true,
          if_false, if_pos hc, if_neg h8]
        split <;> simp
    · simp only [process_signal, ha, Bool.not_true, Bool.false_eq_true,
        if_false, if_neg hc]
      exact le_refl _
  · have ha' : s.active = false := by
      cases hb' : s.active
      · rfl
      · exact absurd hb' ha
    simp [process_signal, ha']

/-- Witness for C6 (amended): processing Scenario A's signal on the
activated demo engine does not decrease `total_pnl`. -/
theorem total_pnl_monotone_witness :
    demoActive.metrics.total_pnl ≤
      (process_signal demoActive demoSignalA "n").1.metrics.total_pnl :=
  total_pnl_monotone demoActive demoSignalA "n"
    (by norm_num [demoActive, EngineState.new, EngineState.activate])
    (by norm_num [demoSignalA]) (by norm_num [demoSignalA])

/-- An engine whose risk tolerance exceeds 1, so a neutral signal can clear
the 0.7 confidence threshold (the core performs no range validation). -/
def boundaryState : EngineState :=
  { config :=
      { capital := 1000, risk_tolerance := 1.5, max_position_size := 100,
        trading_mode := "DEMO" }
    metrics := (EngineState.new 1000).metrics
    active := true }

/-- A qualifying signal with `signal_strength` exactly 0.5. -/
def boundarySignal : MarketSignal :=
  { token := "MOODENG", price := 0.1, volume := 1500000,
    timestamp := "2025-01-01T00:00:15+00:00", signal_strength := 0.5 }

/-- The trade `boundaryState` produces for `boundarySignal`: confidence
`min(1 × 0.5 × 1.5, 1) = 0.75`, amount `100 × 0.75 × 1 = 75`, action SELL. -/
def boundaryTrade : TradingSignal :=
  { action := "SELL", token := "MOODENG", amount := 75, price := 0.1,
    confidence := 0.75, timestamp := "n" }

/-- C7: every emitted trade has action BUY when `signal_strength > 0.5` and
SELL otherwise; in particular `signal_strength` exactly 0.5 yields SELL. -/
theorem action_boundary (s : EngineState) (signal : MarketSignal)
    (now : String) (t : TradingSignal)
    (h : (process_signal s signal now).2 = some t) :
    (0.5 < signal.signal_strength → t.action = "BUY") ∧
    (signal.signal_strength ≤ 0.5 → t.action = "SELL") := by
  obtain ⟨-, -, ht⟩ := process_signal_eq_some s signal now t h
  subst ht
  constructor
  · intro hs
    show (if signal.signal_strength > 0.5 then "BUY" else "SELL") = "BUY"
    rw [if_pos hs]
  · intro hs
    show (if signal.signal_strength > 0.5 then "BUY" else "SELL") = "SELL"
    rw [if_neg (not_lt.mpr hs)]

/-- Witness for C7: `boundarySignal` has `signal_strength` exactly 0.5 and
its emitted trade's action is SELL. -/
theorem action_boundary_witness :
    (0.5 < boundarySignal.signal_strength → boundaryTrade.action = "BUY") ∧
    (boundarySignal.signal_strength ≤ 0.5 → boundaryTrade.action = "SELL") :=
  action_boundary boundaryState boundarySignal "n" boundaryTrade (by
    norm_num [process_signal, calculate_confidence, calculate_position_size,
      boundaryState, boundarySignal, boundaryTrade, EngineState.new,
      min_def, abs])

/-- C10: every returned trade carries the input signal's token and price,
the confidence computed by `calculate_confidence` (hence strictly above
0.7), and the amount computed by `calculate_position_size` at that
confidence. -/
theorem trade_fields_from_input (s : EngineState) (signal : MarketSignal)
    (now : String) (t : TradingSignal)
    (h : (process_signal s signal now).2 = some t) :
    t.token = signal.token ∧ t.price = signal.price ∧
    t.confidence = calculate_confidence s.config signal ∧
    0.7 < t.confidence ∧
    t.amount = calculate_position_size s.config signal t.confidence := by
  obtain ⟨-, hc, ht⟩ := process_signal_eq_some s signal now t h
  subst ht
  exact ⟨rfl, rfl, rfl, hc, rfl⟩

/-- The trade the activated demo engine produces for Scenario A's signal:
confidence 0.765, amount `100 × 0.765 × 0.6 = 45.9`. -/
def demoTradeA : TradingSignal :=
  { action := "BUY", token := "BONK", amount := 45.9, price := 0.05,
    confidence := 0.765, timestamp := "n" }

/-- Witness for C10: the Scenario A trade carries the input's token and
price, the computed confidence 0.765 and the computed amount 45.9. -/
theorem trade_fields_from_input_witness :
    demoTradeA.token = demoSignalA.token ∧
    demoTradeA.price = demoSignalA.price ∧
    demoTradeA.confidence = calculate_confidence demoActive.config demoSignalA ∧
    0.7 < demoTradeA.confidence ∧
    demoTradeA.amount =
      calculate_position_size demoActive.config demoSignalA demoTradeA.confidence :=
  trade_fields_from_input demoActive demoSignalA "n" demoTradeA (by
    norm_num [process_signal, calculate_confidence, calculate_position_size,
      demoActive, demoSignalA, demoTradeA, EngineState.new,
      EngineState.activate, min_def, abs])

/-- C8: `process_signal` completes on every input: the checked variant,
which fails exactly where Python would raise `ZeroDivisionError`, always
succeeds and agrees with `process_signal` — the win-rate division is
guarded by the code's own `total_trades > 0` test. -/
theorem process_signal_never_fails (s : EngineState) (signal : MarketSignal)
    (now : String) :
    process_signal_checked s signal now = some (process_signal s signal now) := by
  by_cases ha : s.active = true
  · by_cases hc : calculate_confidence s.config signal > 0.7
    · by_cases h8 : calculate_confidence s.config signal > 0.8
      · simp only [process_signal_checked, process_signal, ha, Bool.not_true,
          Bool.false_eq_true, if_false, if_pos hc, if_pos h8]
        by_cases hg : s.metrics.total_trades + 1 > 0
        · have hne : ((s.metrics.total_trades + 1 : ℤ) : ℚ) ≠ 0 := by
            exact_mod_cast ne_of_gt hg
          simp only [if_pos hg, checkedDiv, if_neg hne]
        · simp only [if_neg hg]
      · simp only [process_signal_checked, process_signal, ha, Bool.not_true,
          Bool.false_eq_true, if_false, if_pos hc, if_neg h8]
        by_cases hg : s.metrics.total_trades + 1 > 0
        · have hne : ((s.metrics.total_trades + 1 : ℤ) : ℚ) ≠ 0 := by
            exact_mod_cast ne_of_gt hg
          simp only [if_pos hg, checkedDiv, if_neg hne]
        · simp only [if_neg hg]
    · simp only [process_signal_checked, process_signal, ha, Bool.not_true,
        Bool.false_eq_true, if_false, if_neg hc]
  · have ha' : s.active = false := by
      cases hb' : s.active
      · rfl
      · exact absurd hb' ha
    simp only [process_signal_checked, process_signal, ha', Bool.not_false,
      if_true]

/-- C9 counterexample: the constructor takes only `capital`; at capital
1000 it fixes `risk_tolerance` to 0.85 and `trading_mode` to DEMO, and
enforces `max_position_size` = 10% of capital (here 100) — the caller
supplies none of these. -/
theorem config_fixed_at_capital_1000 :
    (EngineState.new 1000).config.max_position_size = 1000 * 0.1 ∧
    (EngineState.new 1000).config.risk_tolerance = 0.85 ∧
    (EngineState.new 1000).config.trading_mode = "DEMO" :=
  ⟨rfl, rfl, rfl⟩

/-- C9 (amended): engine construction takes only `capital`; for every
capital the constructor derives the entire configuration itself, fixing
`risk_tolerance` = 0.85 and `trading_mode` = "DEMO" and enforcing
`max_position_size` = capital × 0.1. -/
theorem config_determined_by_capital (capital : ℚ) :
    (EngineState.new capital).config =
      { capital := capital, risk_tolerance := 0.85,
        max_position_size := capital * 0.1, trading_mode := "DEMO" } :=
  rfl

/-- The metrics invariant maintained by the engine. -/
def MetricsGood (m : PhoenixMetrics) : Prop :=
  0 ≤ m.successful_trades ∧ m.successful_trades ≤ m.total_trades ∧
  0 ≤ m.win_rate ∧ m.win_rate ≤ 1 ∧
  (0 < m.total_trades →
    m.win_rate = (m.successful_trades : ℚ) / (m.total_trades : ℚ)) ∧
  (m.total_trades = 0 → m.win_rate = 0)

lemma metricsGood_new (capital : ℚ) :
    MetricsGood (EngineState.new capital).metrics := by
  simp [MetricsGood, EngineState.new]

lemma metricsGood_process (s : EngineState) (signal : MarketSignal)
    (now : String) (h : MetricsGood s.metrics) :
    MetricsGood (process_signal s signal now).1.metrics := by
  obtain ⟨h1, h2, h3, h4, h5, h6⟩ := h
  by_cases ha : s.active = true
  · by_cases hc : calculate_confidence s.config signal > 0.7
    · have ht1 : (0:ℤ) < s.metrics.total_trades + 1 := by linarith
      have hcast : (0:ℚ) < ((s.metrics.total_trades + 1 : ℤ) : ℚ) := by
        exact_mod_cast ht1
      by_cases h8 : calculate_confidence s.config signal > 0.8
      · simp only [process_signal, ha, Bool.not_true, Bool.false_eq_true,
          if_false, if_pos hc, if_pos h8, if_pos ht1]
        unfold MetricsGood
        dsimp only
        refine ⟨by linarith, by linarith, ?_, ?_, fun _ => rfl,
          fun h0 => absurd h0 (by omega)⟩
        · apply div_nonneg _ hcast.le
          exact_mod_cast (by linarith : (0:ℤ) ≤ s.metrics.successful_trades + 1)
        · rw [div_le_one hcast]
          exact_mod_cast (by linarith :
            s.metrics.successful_trades + 1 ≤ s.metrics.total_trades + 1)
      · simp only [process_signal, ha, Bool.not_true, Bool.false_eq_true,
          if_false, if_pos hc, if_neg h8, if_pos ht1]
        unfold MetricsGood
        dsimp only
        refine ⟨h1, by linarith, ?_, ?_, fun _ => rfl,
          fun h0 => absurd h0 (by omega)⟩
        · apply div_nonneg _ hcast.le
          exact_mod_cast h1
        · rw [div_le_one hcast]
          exact_mod_cast (by linarith :
            s.metrics.successful_trades ≤ s.metrics.total_trades + 1)
    · simp only [process_signal, ha, Bool.not_true, Bool.false_eq_true,
        if_false, if_neg hc]
      exact ⟨h1, h2, h3, h4, h5, h6⟩
  · have ha' : s.active = false := by
      cases hb' : s.active
      · rfl
      · exact absurd hb' ha
    simp only [process_signal, ha', Bool.not_false, if_true]
    exact ⟨h1, h2, h3, h4, h5, h6⟩

lemma metricsGood_step (s : EngineState) (c : Call) (h : MetricsGood s.metrics) :
    MetricsGood (stepCall s c).metrics := by
  cases c with
  | activate => exact h
  | deactivate => exact h
  | process signal now => exact metricsGood_process s signal now h
  | get_metrics => exact h

lemma metricsGood_runCalls (s : EngineState) (cs : List Call)
    (h : MetricsGood s.metrics) : MetricsGood (runCalls s cs).metrics := by
  induction cs generalizing s with
  | nil => exact h
  | cons c cs ih => exact ih (stepCall s c) (metricsGood_step s c h)

/-- C2: after any sequence of activate / deactivate / process_signal /
get_metrics calls on a freshly constructed engine, the metrics satisfy
`successful_trades ≤ total_trades`, `win_rate ∈ [0,1]`, and `win_rate`
equals `successful_trades / total_trades` when `total_trades > 0`, else 0. -/
theorem metrics_invariant (capital : ℚ) (cs : List Call) :
    (runCalls (EngineState.new capital) cs).metrics.successful_trades ≤
      (runCalls (EngineState.new capital) cs).metrics.total_trades ∧
    0 ≤ (runCalls (EngineState.new capital) cs).metrics.win_rate ∧
    (runCalls (EngineState.new capital) cs).metrics.win_rate ≤ 1 ∧
    (0 < (runCalls (EngineState.new capital) cs).metrics.total_trades →
      (runCalls (EngineState.new capital) cs).metrics.win_rate =
        ((runCalls (EngineState.new capital) cs).metrics.successful_trades : ℚ) /
          ((runCalls (EngineState.new capital) cs).metrics.total_trades : ℚ)) ∧
    ((runCalls (EngineState.new capital) cs).metrics.total_trades = 0 →
      (runCalls (EngineState.new capital) cs).metrics.win_rate = 0) := by
  obtain ⟨h1, h2, h3, h4, h5, h6⟩ :=
    metricsGood_runCalls (EngineState.new capital) cs (metricsGood_new capital)
  exact ⟨h2, h3, h4, h5, h6⟩

end Phoenix
